import Mathlib

/-!
Shallow embedding of the WA Bill Tracker verification targets.

The browser-side code is embedded from `src/app.js`; the synchronization
pipeline (selector, validator, merger, change detector, normalizer, retry
policy) is modelled from the specification and the repository documentation
because its script sources are not part of the source tree, only their
documented contracts and tests.
-/

namespace WaBill

/-! ## JavaScript value model (for functions that branch on `typeof`) -/

/-- A small model of JavaScript values, enough to distinguish strings from
non-string inputs as `escapeHTML` does with its `typeof str !== 'string'`
guard. -/
inductive JSVal where
  | str (s : String)
  | num (n : Int)
  | boolean (b : Bool)
  | nullV
  | undef
deriving DecidableEq

/-! ## escapeHTML (src/app.js lines 76-80) -/

/-- Replace every occurrence of the character `c` in `l` by the character
sequence `rep`, the semantics of one global `String.replace` pass in
JavaScript. -/
def replaceChar (c : Char) (rep : List Char) : List Char → List Char
  | [] => []
  | x :: xs => (if x = c then rep else [x]) ++ replaceChar c rep xs

/-- The double-quote character, written via its code point. -/
def quoteChar : Char := Char.ofNat 34

/-- The apostrophe character, written via its code point. -/
def aposChar : Char := Char.ofNat 39

/-- Embeds `escapeHTML` from `src/app.js`: five chained global replacements,
ampersand first, then `<`, `>`, double quote, apostrophe. -/
def escapeHTMLChars (l : List Char) : List Char :=
  replaceChar aposChar ("&#39;".toList)
    (replaceChar quoteChar ("&quot;".toList)
      (replaceChar '>' ("&gt;".toList)
        (replaceChar '<' ("&lt;".toList)
          (replaceChar '&' ("&amp;".toList) l))))

/-- `escapeHTML` on a JavaScript value: non-string inputs yield the empty
string (the `typeof` guard), string inputs are escaped. -/
def escapeHTML : JSVal → String
  | .str s => String.mk (escapeHTMLChars s.toList)
  | _ => ""

/-! ## String helpers shared by the embeddings -/

/-- Case-insensitive text is modelled by lower-casing the character list. -/
def lowerChars (s : String) : List Char :=
  s.toList.map Char.toLower

/-- Boolean infix test on character lists: `needle` occurs contiguously in
`hay`.  This is the semantics of Python's `in` and JavaScript's
`String.includes`. -/
def containsSub (hay needle : List Char) : Bool :=
  hay.tails.any (fun t => needle.isPrefixOf t)

/-! ## Status normalization (Normalizer/Classifier)

Modelled from the spec: the Python script that implements
`normalize_status` is not in the source tree; the definition follows the
spec's priority-ordered, case-insensitive substring rules (section 4.2) and
the documentation's flowchart.  The chamber test inside rule 5 and the
origin-versus-opposite test inside rule 6 are under-determined by the spec;
they are rendered as documented ("both chambers mentioned", a passed marker)
and no claim depends on them. -/

/-- `normalize_status raw history`: first matching rule wins, tested over the
lower-cased concatenation of the raw status and the history line. -/
def normalize_status (status historyLine : String) : String :=
  let c := lowerChars (status ++ " " ++ historyLine)
  if containsSub c ("effective date".toList) || containsSub c ("chapter law".toList) then
    "enacted"
  else if containsSub c ("vetoed".toList) then
    "vetoed"
  else if containsSub c ("died".toList) || containsSub c ("indefinitely postponed".toList) then
    "failed"
  else if containsSub c ("governor".toList) then
    "governor"
  else if containsSub c ("house".toList) && containsSub c ("senate".toList) then
    "passed_legislature"
  else if containsSub c ("third reading".toList) then
    (if containsSub c ("passed".toList) then "passed_origin" else "floor")
  else if containsSub c ("committee".toList) || containsSub c ("referred to".toList) then
    "committee"
  else if containsSub c ("first reading".toList) then
    "introduced"
  else
    "prefiled"

/-! ## Tiered selection (Tier 2, stale-active)

Modelled from the spec: `select_bills_for_refresh` lives in the incremental
fetch script, which is not in the source tree.  The definition follows the
spec's Tier 2 contract (section 4.1) and the documented test
`TestSelectBillsForRefresh`: keep manifest entries with a non-terminal
status, order by ascending `lastFetched`, truncate to the batch budget. -/

/-- Per-bill manifest bookkeeping entry. -/
structure ManifestEntry where
  status : String
  lastFetched : Nat
deriving DecidableEq, Repr

/-- The four terminal statuses after which no transition is expected. -/
def terminalStatuses : List String :=
  ["enacted", "vetoed", "failed", "partial_veto"]

/-- Insert one manifest binding into a list kept sorted by ascending
`lastFetched`. -/
def insertByLastFetched (x : String × ManifestEntry) :
    List (String × ManifestEntry) → List (String × ManifestEntry)
  | [] => [x]
  | y :: ys =>
    if x.2.lastFetched ≤ y.2.lastFetched then x :: y :: ys
    else y :: insertByLastFetched x ys

/-- Sort manifest bindings by ascending `lastFetched` (oldest first). -/
def sortByLastFetched (l : List (String × ManifestEntry)) :
    List (String × ManifestEntry) :=
  l.foldr insertByLastFetched []

/-- Tier 2 selection: non-terminal manifest entries, oldest fetched first,
truncated to `max_batch`. -/
def select_bills_for_refresh (manifestBills : List (String × ManifestEntry))
    (max_batch : Nat) : List String :=
  let candidates := manifestBills.filter
    (fun p => !(terminalStatuses.contains p.2.status))
  ((sortByLastFetched candidates).take max_batch).map Prod.fst

/-! ## Validator

Modelled from the spec: the validation script is not in the source tree.
The definition follows the spec's Validator contract (section 4.6) and the
documented tests `TestValidateBillsJson`: count check, required-field
presence, duplicate-id check, status-enum check, and the 90% data-loss
guard against the last known-good manifest bill count.  A candidate bill is
a JSON object, so required fields are modelled as optional and the presence
check requires each to be set. -/

/-- A candidate bill as read from JSON: every required field may be absent. -/
structure RawBill where
  id : Option String
  number : Option String
  title : Option String
  status : Option String
  priority : Option String
  topic : Option String
  session : Option String
deriving DecidableEq, Repr

/-- A candidate dataset: the recorded total and the bill array. -/
structure RawDataset where
  totalBills : Nat
  bills : List RawBill
deriving DecidableEq, Repr

/-- The 13-value status enum of the data model. -/
def validStatuses : List String :=
  ["prefiled", "introduced", "committee", "floor",
   "passed_origin", "opposite_committee", "opposite_floor",
   "passed_legislature", "governor", "enacted",
   "vetoed", "failed", "partial_veto"]

/-- Does the list of optional ids contain a duplicate value? -/
def hasDupIds : List (Option String) → Bool
  | [] => false
  | x :: xs => xs.contains x || hasDupIds xs

/-- All seven required fields are present on a bill. -/
def requiredFieldsPresent (b : RawBill) : Bool :=
  b.id.isSome && b.number.isSome && b.title.isSome && b.status.isSome &&
  b.priority.isSome && b.topic.isSome && b.session.isSome

/-- The data-loss guard: the candidate may not have lost more than 10% of
the bills recorded by the last known-good manifest.  `len(bills) >=
billCount * 0.9` is rendered exactly over the integers as
`10 * len(bills) >= 9 * billCount`. -/
def lossGuardOk (numBills manifestBillCount : Nat) : Bool :=
  9 * manifestBillCount ≤ 10 * numBills

/-- The status of a bill is present and a member of the 13-value enum. -/
def statusValid (b : RawBill) : Bool :=
  match b.status with
  | some s => validStatuses.contains s
  | none => false

/-- The Validator gate: all checks must pass. -/
def validate_bills_data (data : RawDataset) (manifestBillCount : Nat) : Bool :=
  (data.totalBills == data.bills.length) &&
  data.bills.all requiredFieldsPresent &&
  !(hasDupIds (data.bills.map RawBill.id)) &&
  data.bills.all statusValid &&
  lossGuardOk data.bills.length manifestBillCount

/-! ## Merger

Modelled from the spec: the merge step of the incremental fetch script is
not in the source tree.  The definition follows the Merger contract
(section 4.4): records untouched this cycle are copied unchanged, touched
records are replaced wholesale, Tier 3 hearing attachments replace the
`hearings` array, new records are appended, and `totalBills` is recomputed
as the output array length. -/

/-- One hearing attachment. -/
structure Hearing where
  date : String
  time : String
  committee : String
  room : String
  hearingType : String
deriving DecidableEq, Repr

/-- A persisted bill record (the fields the Merger reads or writes). -/
structure BillRecord where
  id : String
  status : String
  hearings : List Hearing
deriving DecidableEq, Repr

/-- A persisted dataset. -/
structure Dataset where
  totalBills : Nat
  bills : List BillRecord
deriving DecidableEq, Repr

/-- Replace the hearings array of a bill when it appears in the Tier 3
attachment map. -/
def attachHearings (hearingsMap : List (String × List Hearing))
    (b : BillRecord) : BillRecord :=
  match hearingsMap.find? (fun p => p.1 == b.id) with
  | some p => { b with hearings := p.2 }
  | none => b

/-- Incremental merge: prior records are kept (replaced wholesale when an
update with the same id exists), genuinely new records are appended, and
Tier 3 hearings are attached to every bill in the attachment map. -/
def merge_bills (prior : List BillRecord) (updates : List BillRecord)
    (hearingsMap : List (String × List Hearing)) : List BillRecord :=
  let kept := prior.map (fun b =>
    match updates.find? (fun u => u.id == b.id) with
    | some u => u
    | none => b)
  let fresh := updates.filter (fun u => !(prior.any (fun b => b.id == u.id)))
  (kept ++ fresh).map (attachHearings hearingsMap)

/-- Incremental merge at the dataset level, recomputing `totalBills`. -/
def mergeDataset (prior : Dataset) (updates : List BillRecord)
    (hearingsMap : List (String × List Hearing)) : Dataset :=
  let merged := merge_bills prior.bills updates hearingsMap
  { totalBills := merged.length, bills := merged }

/-! ## Retry policy

Modelled from the spec and the documentation's `make_request_with_retry`
listing: the fetch scripts are not in the source tree.  The network is
abstracted as a map from attempt index to that attempt's outcome; the
function returns the final outcome together with the list of backoff delays
it slept, in order.  Attempt `i` that fails before the last allowed attempt
sleeps `base_delay * 2 ^ i`; a failure on the last allowed attempt
re-raises. -/

/-- One attempt loop of `make_request_with_retry`, carrying the current
attempt index and the number of attempts still allowed. -/
def retryGo (outcomes : Nat → Except String String) (base_delay : Nat) :
    Nat → Nat → Except String String × List Nat
  | _, 0 => (Except.error "no attempts allowed", [])
  | attempt, remaining + 1 =>
    match outcomes attempt with
    | Except.ok r => (Except.ok r, [])
    | Except.error e =>
      if remaining = 0 then (Except.error e, [])
      else
        let rest := retryGo outcomes base_delay (attempt + 1) remaining
        (rest.1, base_delay * 2 ^ attempt :: rest.2)

/-- `make_request_with_retry` with its documented default of 3 attempts. -/
def make_request_with_retry (outcomes : Nat → Except String String)
    (max_retries : Nat := 3) (base_delay : Nat := 1) :
    Except String String × List Nat :=
  retryGo outcomes base_delay 0 max_retries

/-! ## Cutoff status (src/app.js lines 1028-1052)

Instants in time are embedded as naturals on one totally ordered scale:
`endOfDayLocal` turns each configured cutoff date string into the instant at
which that day ends, so a cutoff table entry here directly carries that
instant (encoded `YYYYMMDD`, a strictly monotone encoding of dates), and
`now <= endOfDayLocal(cutoff.date)` becomes `now ≤ cutoff.date`. -/

/-- One entry of `APP_CONFIG.cutoffDates`: the end-of-day instant of the
cutoff date, its display label, and the statuses that fail at it. -/
structure CutoffEntry where
  date : Nat
  label : String
  failsBefore : List String
deriving DecidableEq, Repr

/-- The concrete `APP_CONFIG.cutoffDates` table from `src/app.js`. -/
def appConfigCutoffDates : List CutoffEntry :=
  [⟨20260204, "Policy Committee (Origin)", ["prefiled", "introduced"]⟩,
   ⟨20260209, "Fiscal Committee (Origin)", ["prefiled", "introduced", "committee"]⟩,
   ⟨20260217, "House of Origin", ["prefiled", "introduced", "committee", "floor"]⟩,
   ⟨20260225, "Policy Committee (Opposite)",
     ["prefiled", "introduced", "committee", "floor", "passed_origin"]⟩,
   ⟨20260304, "Fiscal Committee (Opposite)",
     ["prefiled", "introduced", "committee", "floor", "passed_origin", "opposite_chamber"]⟩,
   ⟨20260306, "Opposite House",
     ["prefiled", "introduced", "committee", "floor", "passed_origin", "opposite_chamber"]⟩,
   ⟨20260312, "Sine Die",
     ["prefiled", "introduced", "committee", "floor", "passed_origin", "opposite_chamber",
      "passed_both", "passed_legislature"]⟩]

/-- A bill as the browser code sees it (the fields read by
`getBillCutoffStatus` and `filterBills`). -/
structure AppBill where
  id : String
  number : String
  status : String
  priority : String
  committee : String
  session : String
  searchText : String
deriving DecidableEq, Repr

/-- The cutoff loop of `getBillCutoffStatus`: walk the table in order,
stop at the first cutoff whose day has not ended, and otherwise remember
the label of every cutoff the bill's status fails at (later labels
overwrite earlier ones). -/
def cutoffLoop (now : Nat) (status : String) :
    List CutoffEntry → Option String → Option String
  | [], acc => acc
  | c :: cs, acc =>
    if now ≤ c.date then acc
    else cutoffLoop now status cs
      (if c.failsBefore.contains status then some c.label else acc)

/-- Embeds `getBillCutoffStatus` from `src/app.js`: prior-session (2025)
bills and terminal bills are never cutoff failures; otherwise the cutoff
table is scanned as in `cutoffLoop`. -/
def getBillCutoffStatus (now : Nat) (cutoffs : List CutoffEntry)
    (bill : AppBill) : Option String :=
  if bill.session == "2025" then none
  else if ["enacted", "vetoed", "failed", "partial_veto"].contains bill.status then none
  else cutoffLoop now bill.status cutoffs none

/-! ## filterBills (src/app.js lines 1070-1150) -/

/-- The filter panel state read by `filterBills`. -/
structure Filters where
  search : String
  status : List String
  priority : List String
  committee : List String
  type : String
  trackedOnly : Bool
  showInactiveBills : Bool
deriving DecidableEq, Repr

/-- The slice of `APP_STATE` that `filterBills` reads. -/
structure AppState where
  bills : List AppBill
  trackedBills : List String
  filters : Filters
  currentBillType : String
deriving DecidableEq, Repr

/-- JavaScript truthiness of a nullable string: non-null and non-empty. -/
def optTruthy : Option String → Bool
  | some s => s != ""
  | none => false

/-- One conditional filtering stage: JavaScript's
`if (cond) filtered = filtered.filter(p)`. -/
def condFilter (cond : Bool) (p : AppBill → Bool) (l : List AppBill) :
    List AppBill :=
  if cond then l.filter p else l

/-- The status-alias expansion table inside `filterBills`. -/
def statusAliases (s : String) : List String :=
  if s == "prefiled" then ["prefiled"]
  else if s == "introduced" then ["introduced"]
  else if s == "committee" then ["committee", "opposite_committee"]
  else if s == "floor" then ["floor", "opposite_floor"]
  else if s == "passed_origin" then ["passed_origin", "passed", "passed_legislature"]
  else if s == "passed" then ["passed", "passed_origin", "passed_legislature"]
  else if s == "governor" then ["governor"]
  else if s == "enacted" then ["enacted"]
  else if s == "vetoed" then ["vetoed"]
  else if s == "failed" then ["failed"]
  else [s]

/-- The expanded status set built from the selected status filters. -/
def expandStatuses (selected : List String) : List String :=
  selected.foldl (fun acc s => acc ++ statusAliases s) []

/-- The leading token of a bill's display number (`number.split(' ')[0]`). -/
def billTypeOf (number : String) : String :=
  (number.splitOn " ").headD ""

/-- Embeds `filterBills` from `src/app.js` as its chain of conditional
filtering stages over a copy of `APP_STATE.bills`.  `now` abstracts the
`new Date()` read inside the cutoff check. -/
def filterBills (now : Nat) (state : AppState) : List AppBill :=
  let f := state.filters
  let s1 := condFilter (!f.showInactiveBills)
    (fun b => !(b.session == "2025") &&
      !(optTruthy (getBillCutoffStatus now appConfigCutoffDates b)))
    state.bills
  let s2 := condFilter (state.currentBillType != "" &&
      state.currentBillType.toLower != "all")
    (fun b => (billTypeOf b.number).toUpper == state.currentBillType.toUpper) s1
  let s3 := condFilter (f.search != "")
    (fun b => containsSub b.searchText.toList f.search.toLower.toList) s2
  let s4 := condFilter (!f.status.isEmpty)
    (fun b => (expandStatuses f.status).contains b.status) s3
  let s5 := condFilter (!f.priority.isEmpty)
    (fun b => f.priority.contains b.priority) s4
  let s6 := condFilter (!f.committee.isEmpty)
    (fun b => b.committee != "" &&
      f.committee.any (fun c => b.committee.toLower == c)) s5
  let s7 := condFilter (f.type != "")
    (fun b => billTypeOf b.number == f.type) s6
  condFilter f.trackedOnly (fun b => state.trackedBills.contains b.id) s7

/-! ## Content fingerprint (Change Detector)

Modelled from the spec and the documented content-hash formula
`hashlib.md5(content.encode()).hexdigest()[:8]` with
`content = f"{status}|{history_line}|{action_date}|{sponsor}"`: the fetch
scripts are not in the source tree.  MD5 is implemented over byte lists,
with 32-bit words as naturals reduced modulo `2 ^ 32`. -/

/-- The 64 MD5 round constants (floor(abs(sin(i + 1)) * 2^32)). -/
def md5K : List Nat :=
  [0xd76aa478, 0xe8c7b756, 0x242070db, 0xc1bdceee,
   0xf57c0faf, 0x4787c62a, 0xa8304613, 0xfd469501,
   0x698098d8, 0x8b44f7af, 0xffff5bb1, 0x895cd7be,
   0x6b901122, 0xfd987193, 0xa679438e, 0x49b40821,
   0xf61e2562, 0xc040b340, 0x265e5a51, 0xe9b6c7aa,
   0xd62f105d, 0x02441453, 0xd8a1e681, 0xe7d3fbc8,
   0x21e1cde6, 0xc33707d6, 0xf4d50d87, 0x455a14ed,
   0xa9e3e905, 0xfcefa3f8, 0x676f02d9, 0x8d2a4c8a,
   0xfffa3942, 0x8771f681, 0x6d9d6122, 0xfde5380c,
   0xa4beea44, 0x4bdecfa9, 0xf6bb4b60, 0xbebfbc70,
   0x289b7ec6, 0xeaa127fa, 0xd4ef3085, 0x04881d05,
   0xd9d4d039, 0xe6db99e5, 0x1fa27cf8, 0xc4ac5665,
   0xf4292244, 0x432aff97, 0xab9423a7, 0xfc93a039,
   0x655b59c3, 0x8f0ccc92, 0xffeff47d, 0x85845dd1,
   0x6fa87e4f, 0xfe2ce6e0, 0xa3014314, 0x4e0811a1,
   0xf7537e82, 0xbd3af235, 0x2ad7d2bb, 0xeb86d391]

/-- The 64 MD5 per-round left-rotation amounts. -/
def md5S : List Nat :=
  [7, 12, 17, 22, 7, 12, 17, 22, 7, 12, 17, 22, 7, 12, 17, 22,
   5, 9, 14, 20, 5, 9, 14, 20, 5, 9, 14, 20, 5, 9, 14, 20,
   4, 11, 16, 23, 4, 11, 16, 23, 4, 11, 16, 23, 4, 11, 16, 23,
   6, 10, 15, 21, 6, 10, 15, 21, 6, 10, 15, 21, 6, 10, 15, 21]

/-- Bitwise complement within 32 bits. -/
def not32 (x : Nat) : Nat := x ^^^ 0xffffffff

/-- Left rotation of a 32-bit word. -/
def rotl32 (x s : Nat) : Nat :=
  ((x * 2 ^ s) % 2 ^ 32) ||| (x / 2 ^ (32 - s))

/-- The MD5 nonlinear mixing function of round `i`. -/
def md5F (i b c d : Nat) : Nat :=
  if i < 16 then (b &&& c) ||| (not32 b &&& d)
  else if i < 32 then (d &&& b) ||| (not32 d &&& c)
  else if i < 48 then b ^^^ c ^^^ d
  else c ^^^ (b ||| not32 d)

/-- The MD5 message-word index of round `i`. -/
def md5G (i : Nat) : Nat :=
  if i < 16 then i
  else if i < 32 then (5 * i + 1) % 16
  else if i < 48 then (3 * i + 5) % 16
  else (7 * i) % 16

/-- One MD5 round over state `(a, b, c, d)` with message words `m`. -/
def md5Step (m : List Nat) (st : Nat × Nat × Nat × Nat) (i : Nat) :
    Nat × Nat × Nat × Nat :=
  match st with
  | (a, b, c, d) =>
    let f := (md5F i b c d + a + md5K.getD i 0 + m.getD (md5G i) 0) % 2 ^ 32
    (d, (b + rotl32 f (md5S.getD i 0)) % 2 ^ 32, b, c)

/-- Group a byte list into little-endian 32-bit words. -/
def leWords : List Nat → List Nat
  | b0 :: b1 :: b2 :: b3 :: rest =>
    (b0 + 256 * b1 + 65536 * b2 + 16777216 * b3) :: leWords rest
  | _ => []

/-- The little-endian 8-byte rendering of a 64-bit length value. -/
def leBytes8 (n : Nat) : List Nat :=
  (List.range 8).map (fun i => n / 2 ^ (8 * i) % 256)

/-- The little-endian 4-byte rendering of a 32-bit word. -/
def wordLEBytes (w : Nat) : List Nat :=
  [w % 256, w / 256 % 256, w / 65536 % 256, w / 16777216 % 256]

/-- MD5 padding: append `0x80`, zero-fill to 56 modulo 64 bytes, then the
original bit length as 8 little-endian bytes. -/
def md5Pad (msg : List Nat) : List Nat :=
  let padZeros := (119 - msg.length % 64) % 64
  msg ++ [0x80] ++ List.replicate padZeros 0 ++ leBytes8 (8 * msg.length % 2 ^ 64)

/-- Split a byte list into 64-byte chunks. -/
def chunks64 : List Nat → List (List Nat)
  | [] => []
  | x :: xs => ((x :: xs).take 64) :: chunks64 ((x :: xs).drop 64)
termination_by l => l.length
decreasing_by simp; omega

/-- Process one 64-byte chunk: 64 rounds, then add into the running state
modulo `2 ^ 32`. -/
def md5Chunk (st : Nat × Nat × Nat × Nat) (chunk : List Nat) :
    Nat × Nat × Nat × Nat :=
  let m := leWords chunk
  match st, (List.range 64).foldl (md5Step m) st with
  | (a0, b0, c0, d0), (a, b, c, d) =>
    ((a0 + a) % 2 ^ 32, (b0 + b) % 2 ^ 32, (c0 + c) % 2 ^ 32, (d0 + d) % 2 ^ 32)

/-- The MD5 state after absorbing a whole (padded) message. -/
def md5State (msg : List Nat) : Nat × Nat × Nat × Nat :=
  (chunks64 (md5Pad msg)).foldl md5Chunk
    (0x67452301, 0xefcdab89, 0x98badcfe, 0x10325476)

/-- The 16-byte MD5 digest of a byte list. -/
def md5Digest (msg : List Nat) : List Nat :=
  match md5State msg with
  | (a, b, c, d) => wordLEBytes a ++ wordLEBytes b ++ wordLEBytes c ++ wordLEBytes d

/-- A lowercase hexadecimal digit. -/
def hexDigit (n : Nat) : Char :=
  if n < 10 then Char.ofNat (48 + n) else Char.ofNat (87 + n)

/-- Lowercase hexadecimal rendering of a byte list, two digits per byte. -/
def bytesToHex : List Nat → List Char
  | [] => []
  | b :: bs => hexDigit (b / 16 % 16) :: hexDigit (b % 16) :: bytesToHex bs

/-- `hashlib.md5(...).hexdigest()` as a character list. -/
def md5HexChars (msg : List Nat) : List Char :=
  bytesToHex (md5Digest msg)

/-- The UTF-8 bytes of a string (Python's `str.encode()`). -/
def utf8Bytes (s : String) : List Nat :=
  s.toUTF8.toList.map (fun b => b.toNat)

/-- The documented content fingerprint: the first 8 hex characters of the
MD5 digest of the pipe-joined fields. -/
def compute_content_hash (status historyLine actionDate sponsor : String) :
    String :=
  let content := status ++ "|" ++ historyLine ++ "|" ++ actionDate ++ "|" ++ sponsor
  String.mk ((md5HexChars (utf8Bytes content)).take 8)

/-! ## Helper lemmas -/

/-- A character of one replacement pass came from the replacement text or
survived the pass unchanged (and then differs from the replaced one). -/
lemma mem_replaceChar {ch c : Char} {rep l : List Char}
    (h : ch ∈ replaceChar c rep l) : ch ∈ rep ∨ (ch ∈ l ∧ ch ≠ c) := by
  induction l with
  | nil => simp [replaceChar] at h
  | cons x xs ih =>
    rw [replaceChar] at h
    rcases List.mem_append.mp h with h1 | h1
    · by_cases hx : x = c
      · exact Or.inl (by simpa [hx] using h1)
      · have hcx : ch = x := by simpa [hx] using h1
        subst hcx
        exact Or.inr ⟨List.mem_cons_self _ _, hx⟩
    · rcases ih h1 with h2 | ⟨h2, h3⟩
      · exact Or.inl h2
      · exact Or.inr ⟨List.mem_cons_of_mem _ h2, h3⟩

/-- Transfer a decided character-set property to a member of the set. -/
lemma fourNe_of_mem {ch : Char} {l : List Char}
    (hl : ∀ c ∈ l, c ≠ '<' ∧ c ≠ '>' ∧ c ≠ quoteChar ∧ c ≠ aposChar)
    (h : ch ∈ l) : ch ≠ '<' ∧ ch ≠ '>' ∧ ch ≠ quoteChar ∧ ch ≠ aposChar :=
  hl ch h

/-! ## C8 -/

/-- C8: the output of `escapeHTML` on any string contains none of the
characters `<`, `>`, double quote or apostrophe, and any non-string input
yields the empty string. -/
theorem escapeHTML_markup_free :
    (∀ s : String, ∀ ch ∈ (escapeHTML (JSVal.str s)).data,
        ch ≠ '<' ∧ ch ≠ '>' ∧ ch ≠ quoteChar ∧ ch ≠ aposChar) ∧
    (∀ v : JSVal, (∀ s : String, v ≠ JSVal.str s) → escapeHTML v = "") := by
  constructor
  · intro s ch hch
    have h5 : ch ∈ escapeHTMLChars s.toList := hch
    rw [escapeHTMLChars] at h5
    rcases mem_replaceChar h5 with hE | ⟨h4, hne4⟩
    · exact fourNe_of_mem (by decide) hE
    rcases mem_replaceChar h4 with hE | ⟨h3, hne3⟩
    · exact fourNe_of_mem (by decide) hE
    rcases mem_replaceChar h3 with hE | ⟨h2, hne2⟩
    · exact fourNe_of_mem (by decide) hE
    rcases mem_replaceChar h2 with hE | ⟨h1, hne1⟩
    · exact fourNe_of_mem (by decide) hE
    exact ⟨hne1, hne2, hne3, hne4⟩
  · intro v hv
    cases v with
    | str s => exact absurd rfl (hv s)
    | num n => rfl
    | boolean b => rfl
    | nullV => rfl
    | undef => rfl

/-- Witness for C8: instantiated at the string input made of one `<` and at
the non-string input `0`. -/
theorem escapeHTML_markup_free_witness :
    ('&' ≠ '<' ∧ '&' ≠ '>' ∧ '&' ≠ quoteChar ∧ '&' ≠ aposChar) ∧
    escapeHTML (JSVal.num 0) = "" :=
  ⟨escapeHTML_markup_free.1 "<" '&' (by decide),
   escapeHTML_markup_free.2 (JSVal.num 0) (fun s h => JSVal.noConfusion h)⟩

/-! ## C4 -/

/-- C4: rule 1 of the status normalization wins over every later rule: any
record whose lower-cased combined status and history line contains
"effective date" normalizes to `enacted`. -/
theorem normalize_status_rule1 :
    ∀ status historyLine : String,
      containsSub (lowerChars (status ++ " " ++ historyLine))
        ("effective date".toList) = true →
      normalize_status status historyLine = "enacted" := by
  intro status historyLine h
  simp at h
  unfold normalize_status
  simp [h]

/-- Witness for C4: raw status "committee" with history line
"Effective date 7/1/2026" normalizes to `enacted`. -/
theorem normalize_status_rule1_witness :
    normalize_status "committee" "Effective date 7/1/2026" = "enacted" :=
  normalize_status_rule1 "committee" "Effective date 7/1/2026" (by decide)

/-! ## C7 -/

/-- C7: the incremental Merger never shrinks the dataset: the output bill
array is at least as long as the prior one. -/
theorem mergeDataset_preserves_length :
    ∀ (prior : Dataset) (updates : List BillRecord)
      (hearingsMap : List (String × List Hearing)),
      prior.bills.length ≤ (mergeDataset prior updates hearingsMap).bills.length := by
  intro prior updates hm
  unfold mergeDataset merge_bills
  simp

/-! ## C3 -/

/-- Hex rendering doubles the byte count. -/
lemma bytesToHex_length (l : List Nat) : (bytesToHex l).length = 2 * l.length := by
  induction l with
  | nil => rfl
  | cons b bs ih => simp [bytesToHex, ih]; omega

/-- An MD5 digest is 16 bytes. -/
lemma md5Digest_length (msg : List Nat) : (md5Digest msg).length = 16 := by
  unfold md5Digest
  obtain ⟨a, b, c, d⟩ := md5State msg
  simp [wordLEBytes]

/-- C3: the content fingerprint is deterministic, equals the first 8 hex
characters of the MD5 digest of the pipe-joined fields, and is 8 characters
long. -/
theorem compute_content_hash_deterministic :
    ∀ status historyLine actionDate sponsor : String,
      compute_content_hash status historyLine actionDate sponsor =
        compute_content_hash status historyLine actionDate sponsor ∧
      compute_content_hash status historyLine actionDate sponsor =
        String.mk ((md5HexChars (utf8Bytes
          (status ++ "|" ++ historyLine ++ "|" ++ actionDate ++ "|" ++ sponsor))).take 8) ∧
      (compute_content_hash status historyLine actionDate sponsor).length = 8 := by
  intro s h a sp
  refine ⟨rfl, rfl, ?_⟩
  have hlen :
      (md5HexChars (utf8Bytes (s ++ "|" ++ h ++ "|" ++ a ++ "|" ++ sp))).length = 32 := by
    unfold md5HexChars
    rw [bytesToHex_length, md5Digest_length]
  simp [compute_content_hash, String.length, List.length_take, hlen]

/-! ## C1 -/

/-- Insertion keeps exactly the old members plus the inserted binding. -/
lemma mem_insertByLastFetched {a x : String × ManifestEntry}
    {l : List (String × ManifestEntry)} :
    a ∈ insertByLastFetched x l ↔ a = x ∨ a ∈ l := by
  induction l with
  | nil => simp [insertByLastFetched]
  | cons y ys ih =>
    rw [insertByLastFetched]
    split
    · simp
    · simp [List.mem_cons, ih]
      tauto

/-- Sorting by `lastFetched` neither adds nor removes bindings. -/
lemma mem_sortByLastFetched {a : String × ManifestEntry}
    {l : List (String × ManifestEntry)} :
    a ∈ sortByLastFetched l ↔ a ∈ l := by
  induction l with
  | nil => simp [sortByLastFetched]
  | cons x xs ih =>
    have hstep : sortByLastFetched (x :: xs) =
        insertByLastFetched x (sortByLastFetched xs) := rfl
    rw [hstep, mem_insertByLastFetched, ih]
    simp

/-- C1: Tier 2 selection excludes terminal bills: an id whose manifest
entries all carry a terminal status is never selected, whatever the budget
and however old its `lastFetched` is. -/
theorem select_bills_excludes_terminal :
    ∀ (manifestBills : List (String × ManifestEntry)) (max_batch : Nat)
      (id : String),
      (∀ p ∈ manifestBills, p.1 = id →
        terminalStatuses.contains p.2.status = true) →
      id ∉ select_bills_for_refresh manifestBills max_batch := by
  intro m budget id h hmem
  simp only [select_bills_for_refresh] at hmem
  obtain ⟨p, hp, hpid⟩ := List.mem_map.mp hmem
  have hp2 : p ∈ sortByLastFetched
      (m.filter fun q => !(terminalStatuses.contains q.2.status)) :=
    (List.take_sublist _ _).subset hp
  have hp3 := mem_sortByLastFetched.mp hp2
  obtain ⟨hpm, hflt⟩ := List.mem_filter.mp hp3
  have hterm := h p hpm hpid
  have hmemterm : p.2.status ∈ terminalStatuses := by simpa using hterm
  have hnotterm : p.2.status ∉ terminalStatuses := by simpa using hflt
  exact hnotterm hmemterm

/-- Witness for C1: the documented manifest with an enacted and a committee
bill; the enacted one is not selected. -/
theorem select_bills_excludes_terminal_witness :
    "HB1001" ∉ select_bills_for_refresh
      [("HB1001", ⟨"enacted", 0⟩), ("HB1002", ⟨"committee", 5⟩)] 10 :=
  select_bills_excludes_terminal
    [("HB1001", ⟨"enacted", 0⟩), ("HB1002", ⟨"committee", 5⟩)] 10 "HB1001"
    (by decide)

/-! ## C2 -/

/-- C2: when every other Validator check passes, validation rejects exactly
when the candidate lost more than 10% of the manifest bill count; in
particular, against a manifest count of 1000 a candidate of 850 bills is
rejected and one of 901 bills is accepted. -/
theorem validator_loss_guard :
    ∀ (data : RawDataset) (manifestBillCount : Nat),
      data.totalBills = data.bills.length →
      data.bills.all requiredFieldsPresent = true →
      hasDupIds (data.bills.map RawBill.id) = false →
      data.bills.all statusValid = true →
      (validate_bills_data data manifestBillCount = false ↔
        10 * data.bills.length < 9 * manifestBillCount) ∧
      (data.bills.length = 850 → manifestBillCount = 1000 →
        validate_bills_data data manifestBillCount = false) ∧
      (data.bills.length = 901 → manifestBillCount = 1000 →
        validate_bills_data data manifestBillCount = true) := by
  intro data mc h1 h2 h3 h4
  have hmain : validate_bills_data data mc = lossGuardOk data.bills.length mc := by
    unfold validate_bills_data
    simp [h1, h2, h3, h4]
  refine ⟨?_, ?_, ?_⟩
  · rw [hmain]
    unfold lossGuardOk
    simp only [decide_eq_false_iff_not]
    omega
  · intro hl hm
    rw [hmain, hl, hm]
    decide
  · intro hl hm
    rw [hmain, hl, hm]
    decide

/-- Witness for C2: a well-formed two-bill candidate against a manifest
count of 3 is rejected (20 < 27). -/
theorem validator_loss_guard_witness :
    validate_bills_data
      ⟨2, [⟨some "HB1001", some "HB 1001", some "Test", some "committee",
            some "medium", some "General", some "2026"⟩,
           ⟨some "HB1002", some "HB 1002", some "Test 2", some "floor",
            some "high", some "Education", some "2026"⟩]⟩ 3 = false :=
  ((validator_loss_guard _ 3 (by decide) (by decide) (by decide) (by decide)).1).mpr
    (by decide)

/-! ## C5 -/

/-- C5: validation fails whenever the recorded total differs from the
length of the bill array, and a dataset that passes validation has
`totalBills` equal to that length. -/
theorem validator_count_check :
    ∀ (data : RawDataset) (manifestBillCount : Nat),
      (validate_bills_data data manifestBillCount = true →
        data.totalBills = data.bills.length) ∧
      (data.totalBills ≠ data.bills.length →
        validate_bills_data data manifestBillCount = false) := by
  intro data mc
  constructor
  · intro h
    unfold validate_bills_data at h
    simp only [Bool.and_eq_true, beq_iff_eq] at h
    exact h.1.1.1.1
  · intro hne
    unfold validate_bills_data
    have hbeq : (data.totalBills == data.bills.length) = false := by
      simpa using hne
    simp [hbeq]

/-- Witness for C5: `totalBills = 5` over a 4-element bill array is
rejected. -/
theorem validator_count_check_witness :
    validate_bills_data
      ⟨5, [⟨some "HB1001", some "HB 1001", some "A", some "committee",
            some "medium", some "General", some "2026"⟩,
           ⟨some "HB1002", some "HB 1002", some "B", some "floor",
            some "high", some "Education", some "2026"⟩,
           ⟨some "HB1003", some "HB 1003", some "C", some "introduced",
            some "low", some "Housing", some "2026"⟩,
           ⟨some "HB1004", some "HB 1004", some "D", some "prefiled",
            some "medium", some "Healthcare", some "2026"⟩]⟩ 0 = false :=
  (validator_count_check _ 0).2 (by decide)

/-! ## C9 -/

/-- C9: a bill of the prior 2025 session or with a terminal status is never
flagged as a cutoff failure, for every current instant and every cutoff
table. -/
theorem getBillCutoffStatus_terminal_or_prior_none :
    ∀ (now : Nat) (cutoffs : List CutoffEntry) (bill : AppBill),
      (bill.session = "2025" ∨
        bill.status ∈ ["enacted", "vetoed", "failed", "partial_veto"]) →
      getBillCutoffStatus now cutoffs bill = none := by
  intro now cutoffs bill h
  unfold getBillCutoffStatus
  rcases h with h | h
  · simp [h]
  · by_cases hs : (bill.session == "2025") = true
    · simp [hs]
    · have hc : (["enacted", "vetoed", "failed",
          "partial_veto"].contains bill.status) = true := by
        simpa [List.contains] using List.elem_iff.mpr h
      rw [if_neg hs, if_pos hc]

/-- Witness for C9: an enacted 2026-session bill is not a cutoff failure
under the configured table well after every cutoff has passed. -/
theorem getBillCutoffStatus_terminal_or_prior_none_witness :
    getBillCutoffStatus 20260701 appConfigCutoffDates
      ⟨"HB1001", "HB 1001", "enacted", "high", "Education", "2026", ""⟩ = none :=
  getBillCutoffStatus_terminal_or_prior_none 20260701 appConfigCutoffDates
    ⟨"HB1001", "HB 1001", "enacted", "high", "Education", "2026", ""⟩ (by decide)

/-! ## C6 -/

/-- One unfolding of the retry loop when at least one attempt remains. -/
lemma retryGo_step (outcomes : Nat → Except String String)
    (base attempt n : Nat) :
    retryGo outcomes base attempt (n + 1) =
      match outcomes attempt with
      | Except.ok r => (Except.ok r, [])
      | Except.error e =>
        if n = 0 then (Except.error e, [])
        else
          let rest := retryGo outcomes base (attempt + 1) n
          (rest.1, base * 2 ^ attempt :: rest.2) := rfl

/-- C6: with the documented policy of 3 attempts, a run whose first three
attempts all fail sleeps the doubling delays `base` and `2 * base` and then
propagates the error of the final attempt; a run whose first success is at
attempt `j` returns that success after exactly the delays
`base * 2 ^ i` for `i < j`. -/
theorem make_request_with_retry_policy :
    ∀ (outcomes : Nat → Except String String) (base : Nat),
      (∀ e0 e1 e2, outcomes 0 = Except.error e0 → outcomes 1 = Except.error e1 →
        outcomes 2 = Except.error e2 →
        make_request_with_retry outcomes 3 base =
          (Except.error e2, [base, base * 2])) ∧
      (∀ j r, j < 3 → outcomes j = Except.ok r →
        (∀ i, i < j → ∃ e, outcomes i = Except.error e) →
        make_request_with_retry outcomes 3 base =
          (Except.ok r, (List.range j).map (fun i => base * 2 ^ i))) := by
  intro outcomes base
  constructor
  · intro e0 e1 e2 h0 h1 h2
    have s2 : retryGo outcomes base 2 1 = (Except.error e2, []) := by
      have e := retryGo_step outcomes base 2 0
      rw [h2] at e
      simpa using e
    have s1 : retryGo outcomes base 1 2 = (Except.error e2, [base * 2]) := by
      have e := retryGo_step outcomes base 1 1
      rw [h1] at e
      simpa [s2] using e
    have s0 : retryGo outcomes base 0 3 = (Except.error e2, [base, base * 2]) := by
      have e := retryGo_step outcomes base 0 2
      rw [h0] at e
      simpa [s1] using e
    exact s0
  · intro j r hj hok hfail
    interval_cases j
    · have e := retryGo_step outcomes base 0 2
      rw [hok] at e
      simpa using e
    · obtain ⟨e0, h0⟩ := hfail 0 (by omega)
      have s1 : retryGo outcomes base 1 2 = (Except.ok r, []) := by
        have e := retryGo_step outcomes base 1 1
        rw [hok] at e
        simpa using e
      have e := retryGo_step outcomes base 0 2
      rw [h0] at e
      simpa [make_request_with_retry, s1, List.range_succ, List.range_zero] using e
    · obtain ⟨e0, h0⟩ := hfail 0 (by omega)
      obtain ⟨e1, h1⟩ := hfail 1 (by omega)
      have s2 : retryGo outcomes base 2 1 = (Except.ok r, []) := by
        have e := retryGo_step outcomes base 2 0
        rw [hok] at e
        simpa using e
      have s1 : retryGo outcomes base 1 2 = (Except.ok r, [base * 2]) := by
        have e := retryGo_step outcomes base 1 1
        rw [h1] at e
        simpa [s2] using e
      have e := retryGo_step outcomes base 0 2
      rw [h0] at e
      simpa [make_request_with_retry, s1, List.range_succ, List.range_zero] using e

/-- Witness for C6: with every attempt failing, base delay 5 gives the
sleeps 5 and 10 and the final error propagates. -/
theorem make_request_with_retry_policy_witness :
    make_request_with_retry (fun _ => Except.error "boom") 3 5 =
      (Except.error "boom", [5, 10]) :=
  (make_request_with_retry_policy (fun _ => Except.error "boom") 5).1
    "boom" "boom" "boom" rfl rfl rfl

/-! ## C10 -/

/-- Each conditional filtering stage returns a sublist of its input. -/
lemma condFilter_sublist (cond : Bool) (p : AppBill → Bool)
    (l : List AppBill) : (condFilter cond p l).Sublist l := by
  unfold condFilter
  split
  · exact l.filter_sublist
  · exact List.Sublist.refl l

/-- C10: `filterBills` returns an order-preserving subset of the state's
bills: every returned bill is in the state, multiplicities never increase,
and the survivors keep their relative order (a sublist). -/
theorem filterBills_order_preserving_subset :
    ∀ (now : Nat) (state : AppState),
      (∀ b ∈ filterBills now state, b ∈ state.bills) ∧
      (∀ b : AppBill, (filterBills now state).count b ≤ state.bills.count b) ∧
      (filterBills now state).Sublist state.bills := by
  intro now state
  have hsub : (filterBills now state).Sublist state.bills := by
    refine (condFilter_sublist _ _ _).trans ?_
    refine (condFilter_sublist _ _ _).trans ?_
    refine (condFilter_sublist _ _ _).trans ?_
    refine (condFilter_sublist _ _ _).trans ?_
    refine (condFilter_sublist _ _ _).trans ?_
    refine (condFilter_sublist _ _ _).trans ?_
    refine (condFilter_sublist _ _ _).trans ?_
    exact condFilter_sublist _ _ _
  exact ⟨fun b hb => hsub.subset hb, fun b => hsub.count_le b, hsub⟩

/-- Witness for C10: with no active filters the single bill of a one-bill
state survives and is indeed a bill of the state. -/
theorem filterBills_order_preserving_subset_witness :
    (⟨"HB1001", "HB 1001", "committee", "medium", "Education", "2026",
      "hb 1001"⟩ : AppBill) ∈
      (⟨[⟨"HB1001", "HB 1001", "committee", "medium", "Education", "2026",
          "hb 1001"⟩],
        [], ⟨"", [], [], [], "", false, true⟩, ""⟩ : AppState).bills :=
  (filterBills_order_preserving_subset 0
    ⟨[⟨"HB1001", "HB 1001", "committee", "medium", "Education", "2026",
        "hb 1001"⟩],
      [], ⟨"", [], [], [], "", false, true⟩, ""⟩).1
    ⟨"HB1001", "HB 1001", "committee", "medium", "Education", "2026",
      "hb 1001"⟩ (by decide)

end WaBill
